import Mathlib

/-!
Verification of the Jarvis agent-orchestration core: the interaction driver
loop (`coordinator.py`), the LLM decision parsing (`llm_thinking_engine.py`),
the tool dispatch contract (`default_tool_executor.py`) and the bounded
conversation store (`conversation_manager.py`), shallowly embedded in Lean.
-/

namespace Jarvis

/-- Values decoded from / encoded to JSON documents (`json.loads` / `json.dump`
on Python dict/list/str/number/bool/None trees).  Objects keep key order, as
Python dicts do. -/
inductive Json where
  | null : Json
  | bool (b : Bool) : Json
  | num (q : ℚ) : Json
  | str (s : String) : Json
  | arr (elems : List Json) : Json
  | obj (fields : List (String × Json)) : Json

/-- Key lookup on a decoded JSON object (`dict.get`): first binding wins. -/
def Json.lookup (fields : List (String × Json)) (key : String) : Option Json :=
  match fields with
  | [] => none
  | (k, v) :: rest => if k = key then some v else Json.lookup rest key

/-- The `datetime` values are modelled by a natural-number timestamp. -/
abbrev DateTime := Nat

/-- The character for a decimal digit. -/
def digitChar (d : Nat) : Char := Char.ofNat (48 + d)

/-- Decimal digit value of a character (partial inverse of `digitChar`). -/
def charToDigit (c : Char) : Nat := c.toNat - 48

/-- Whether a character is a decimal digit `'0'`–`'9'`. -/
def isDigitChar (c : Char) : Bool := 48 ≤ c.toNat && c.toNat ≤ 57

/-- Decimal string of a natural number (most significant digit first). -/
def natToDecimal (n : Nat) : String :=
  if n = 0 then "0" else String.mk (((Nat.digits 10 n).map digitChar).reverse)

/-- Parse a decimal string back to a natural number; `none` on any
non-digit character or the empty string. -/
def decimalToNat (s : String) : Option Nat :=
  if s.data ≠ [] ∧ s.data.all isDigitChar then
    some (Nat.ofDigits 10 ((s.data.map charToDigit).reverse))
  else none

/-- The `datetime.isoformat`: modelled as the decimal encoding of the timestamp
(the essential property being an injective text form with an exact parse-back,
as `datetime.isoformat`/`fromisoformat` provide). -/
def DateTime.isoformat (t : DateTime) : String := natToDecimal t

/-- The `datetime.fromisoformat`: exact partial inverse of `isoformat`;
`none` models the `ValueError` raised on a malformed string. -/
def DateTime.fromisoformat (s : String) : Option DateTime := decimalToNat s

/-! ## Conversation store (`conversation_manager.py`) -/

/-- The `MessageRole` enumeration. -/
inductive MessageRole where
  | user : MessageRole
  | assistant : MessageRole
  | system : MessageRole
deriving DecidableEq

/-- The `MessageRole.value`. -/
def MessageRole.value : MessageRole → String
  | .user => "user"
  | .assistant => "assistant"
  | .system => "system"

/-- The `MessageRole(value)`: enum lookup by value; `none` models the
`ValueError` raised for an unknown value. -/
def MessageRole.ofValue (s : String) : Option MessageRole :=
  if s = "user" then some .user
  else if s = "assistant" then some .assistant
  else if s = "system" then some .system
  else none

/-- A single conversation message (`Message` dataclass). -/
structure Message where
  role : MessageRole
  content : String
  timestamp : DateTime
  metadata : List (String × Json)

/-- The `ConversationContext` dataclass: cross-turn running state. -/
structure ConversationContext where
  last_tool_results : List Json := []
  last_user_intent : Option String := none
  last_assistant_action : Option String := none
  context_summary : Option String := none

/-- The `ConversationContext.update`: each argument is optional and `none`
(Python `None`) means "leave the field unchanged". -/
def ConversationContext.update (c : ConversationContext)
    (tool_results : Option (List Json)) (user_intent : Option String)
    (assistant_action : Option String) (context_summary : Option String) :
    ConversationContext where
  last_tool_results := match tool_results with
    | some tr => tr
    | none => c.last_tool_results
  last_user_intent := match user_intent with
    | some s => some s
    | none => c.last_user_intent
  last_assistant_action := match assistant_action with
    | some s => some s
    | none => c.last_assistant_action
  context_summary := match context_summary with
    | some s => some s
    | none => c.context_summary

/-- The `ConversationManager`: message log, running context, capacity, id and
start time. -/
structure ConversationManager where
  messages : List Message
  context : ConversationContext
  max_history_length : Nat
  conversation_id : String
  start_time : DateTime

/-- The `_generate_conversation_id`: an id derived from the current clock. -/
def generateConversationId (now : DateTime) : String :=
  "conv_" ++ natToDecimal now

/-- The `ConversationManager.__init__`; `datetime.now()` is modelled by the
caller-supplied clock value `now`.  The Python default for
`max_history_length` is `20`. -/
def ConversationManager.mkNew (max_history_length : Nat) (now : DateTime) :
    ConversationManager where
  messages := []
  context := {}
  max_history_length := max_history_length
  conversation_id := generateConversationId now
  start_time := now

/-- The `add_message`: appends the new message, then removes the oldest message
when the log exceeds `max_history_length`.  Returns the stored message, as
the Python method does. -/
def ConversationManager.add_message (m : ConversationManager)
    (role : MessageRole) (content : String)
    (metadata : Option (List (String × Json))) (now : DateTime) :
    ConversationManager × Message :=
  let message : Message :=
    { role := role, content := content, timestamp := now,
      metadata := metadata.getD [] }
  let appended := m.messages ++ [message]
  let msgs := if m.max_history_length < appended.length then appended.tail
              else appended
  ({ m with messages := msgs }, message)

/-- The `add_user_message`. -/
def ConversationManager.add_user_message (m : ConversationManager)
    (content : String) (now : DateTime) : ConversationManager × Message :=
  m.add_message .user content none now

/-- The `add_assistant_message`. -/
def ConversationManager.add_assistant_message (m : ConversationManager)
    (content : String) (metadata : Option (List (String × Json)))
    (now : DateTime) : ConversationManager × Message :=
  m.add_message .assistant content metadata now

/-- The `get_conversation_history`: role/content pairs for the LLM API. -/
def ConversationManager.get_conversation_history (m : ConversationManager) :
    List (String × String) :=
  m.messages.map fun msg => (msg.role.value, msg.content)

/-- The `get_recent_messages`: the Python body is
`self.messages[-count:] if self.messages else []`.  For `count = 0` the
slice `[-0:]` is `[0:]`, i.e. the whole list. -/
def ConversationManager.get_recent_messages (m : ConversationManager)
    (count : Nat) : List Message :=
  if m.messages.isEmpty then []
  else if count = 0 then m.messages
  else m.messages.drop (m.messages.length - count)

/-- The `update_context`. -/
def ConversationManager.update_context (m : ConversationManager)
    (tool_results : Option (List Json)) (user_intent : Option String)
    (assistant_action : Option String) (context_summary : Option String) :
    ConversationManager :=
  { m with context :=
      m.context.update tool_results user_intent assistant_action context_summary }

/-! ### Persistence (`save_to_file` / `load_from_file`)

The persisted file is modelled as the optional JSON document it holds
(`Option Json`): `none` stands for a missing file or text that `json.load`
cannot parse. -/

/-- JSON encoding of an optional string (Python `None` becomes `null`). -/
def optStrJson : Option String → Json
  | some s => .str s
  | none => .null

/-- The per-message dict built inside `save_to_file`. -/
def Message.toJson (msg : Message) : Json :=
  .obj [("role", .str msg.role.value),
        ("content", .str msg.content),
        ("timestamp", .str msg.timestamp.isoformat),
        ("metadata", .obj msg.metadata)]

/-- The `context` dict built inside `save_to_file`. -/
def ConversationContext.toJson (c : ConversationContext) : Json :=
  .obj [("last_tool_results", .arr c.last_tool_results),
        ("last_user_intent", optStrJson c.last_user_intent),
        ("last_assistant_action", optStrJson c.last_assistant_action),
        ("context_summary", optStrJson c.context_summary)]

/-- The full document dict built inside `save_to_file`. -/
def ConversationManager.serialize (m : ConversationManager) : Json :=
  .obj [("conversation_id", .str m.conversation_id),
        ("start_time", .str m.start_time.isoformat),
        ("messages", .arr (m.messages.map Message.toJson)),
        ("context", m.context.toJson)]

/-- The possible outcomes of the file write inside `save_to_file`: the
write succeeds; `open(filepath, "w")` itself raises, before touching the
file; or `json.dump` raises after `open` has already truncated the file,
leaving truncated, unparsable content behind. -/
inductive WriteOutcome where
  | ok : WriteOutcome
  | openFail : WriteOutcome
  | dumpFail : WriteOutcome

/-- The `save_to_file`.  The result is the store (the method only reads
`self`), the new file content, and the exception propagated to the caller.
The Python `except Exception: pass` swallows every failure (even its
logging line is commented out), so the propagated-exception component is
always `none`.  On `openFail` the file keeps its previous content; on
`dumpFail` the file was already truncated by `open(filepath, "w")`, so its
content is no longer a readable document (`none`). -/
def ConversationManager.save_to_file (m : ConversationManager)
    (w : WriteOutcome) (fs : Option Json) :
    ConversationManager × Option Json × Option String :=
  match w with
  | .ok => (m, some m.serialize, none)
  | .openFail => (m, fs, none)
  | .dumpFail => (m, none, none)

/-- Decoding of one message dict inside `load_from_file`: a missing key, a
non-string role/content/timestamp, an unknown role value or an unparsable
timestamp raises in Python (`KeyError`/`ValueError`/`TypeError`), modelled
by `none`.  A missing or non-dict `metadata` defaults to `{}`. -/
def Message.fromJson : Json → Option Message
  | .obj fields =>
    match Json.lookup fields "role", Json.lookup fields "content",
          Json.lookup fields "timestamp" with
    | some (.str r), some (.str c), some (.str ts) =>
      match MessageRole.ofValue r, DateTime.fromisoformat ts with
      | some role, some t =>
        some { role := role, content := c, timestamp := t,
               metadata := match Json.lookup fields "metadata" with
                           | some (.obj kvs) => kvs
                           | _ => [] }
      | _, _ => none
    | _, _, _ => none
  | _ => none

/-- String-or-`None` read of a context field (`dict.get` with default
`None`). -/
def jsonToOptStr : Json → Option String
  | .str s => some s
  | _ => none

/-- Decoding of the `context` dict inside `load_from_file`
(`data.get("context", \x7b\x7d)` followed by per-field `get` with
defaults).  A present but non-dict `context` value makes the Python
attribute access raise, modelled by `none`. -/
def ConversationContext.fromJson : Option Json → Option ConversationContext
  | none => some {}
  | some (.obj fields) =>
    some { last_tool_results := match Json.lookup fields "last_tool_results" with
                                | some (.arr l) => l
                                | _ => []
           last_user_intent := match Json.lookup fields "last_user_intent" with
                               | some j => jsonToOptStr j
                               | none => none
           last_assistant_action := match Json.lookup fields "last_assistant_action" with
                                    | some j => jsonToOptStr j
                                    | none => none
           context_summary := match Json.lookup fields "context_summary" with
                              | some j => jsonToOptStr j
                              | none => none }
  | some _ => none

/-- String payload of a JSON value, if it is a string. -/
def Json.asStr : Json → Option String
  | .str s => some s
  | _ => none

/-- Element list of a JSON value, if it is an array. -/
def Json.asArr : Json → Option (List Json)
  | .arr l => some l
  | _ => none

/-- Field list of a JSON value, if it is an object. -/
def Json.asObj : Json → Option (List (String × Json))
  | .obj kvs => some kvs
  | _ => none

/-- The `for msg_data in data["messages"]` loop of `load_from_file`:
messages are decoded in order and the first failure aborts the whole load. -/
def decodeMessages : List Json → Option (List Message)
  | [] => some []
  | d :: rest =>
    match Message.fromJson d, decodeMessages rest with
    | some msg, some msgs => some (msg :: msgs)
    | _, _ => none

/-- The body of the `try` block of `load_from_file`: builds a fresh default
manager (`ConversationManager()`, capacity 20), overwrites its id and start
time from the document, appends every persisted message unchanged (directly
on `manager.messages`, bypassing `add_message`), and replaces the context.
Any shape the Python body raises on (missing key, wrong type, unknown role,
unparsable timestamp) decodes to `none`. -/
def ConversationManager.decode (j : Json) : Option ConversationManager :=
  (Json.asObj j).bind fun fields =>
  ((Json.lookup fields "conversation_id").bind Json.asStr).bind fun cid =>
  ((Json.lookup fields "start_time").bind Json.asStr).bind fun ts =>
  (DateTime.fromisoformat ts).bind fun st =>
  ((Json.lookup fields "messages").bind Json.asArr).bind fun msgDocs =>
  (decodeMessages msgDocs).bind fun msgs =>
  (ConversationContext.fromJson (Json.lookup fields "context")).bind fun ctx =>
  some { messages := msgs, context := ctx, max_history_length := 20,
         conversation_id := cid, start_time := st }

/-- The `load_from_file`: any failure (missing file, unparsable text, or a
document the `try` body raises on) yields a fresh empty manager. -/
def ConversationManager.load_from_file (fs : Option Json) (now : DateTime) :
    ConversationManager :=
  match fs with
  | some j =>
    match ConversationManager.decode j with
    | some m => m
    | none => ConversationManager.mkNew 20 now
  | none => ConversationManager.mkNew 20 now

/-- One `add_message` call reproducing a given message's payload and clock. -/
def appendEvent (cm : ConversationManager) (msg : Message) :
    ConversationManager :=
  (cm.add_message msg.role msg.content (some msg.metadata) msg.timestamp).1

/-- A store holding 21 messages (beyond the default capacity 20), used to
exercise the loader. -/
def bigStore : ConversationManager where
  messages := List.replicate 21 ⟨.user, "x", 0, []⟩
  context := {}
  max_history_length := 99
  conversation_id := "c"
  start_time := 0

/-- What loading `bigStore`'s document yields: same 21 messages, default
capacity. -/
def bigLoaded : ConversationManager where
  messages := List.replicate 21 ⟨.user, "x", 0, []⟩
  context := {}
  max_history_length := 20
  conversation_id := "c"
  start_time := 0

/-! ## Tool dispatch (`default_tool_executor.py`) -/

/-- The `ToolCall` dataclass: a structured tool-invocation request. -/
structure ToolCall where
  tool_name : String
  parameters : List (String × Json)
  reason : String

/-- The `ToolResult` dataclass: the structured outcome of a tool invocation.
On failure `result` is Python `None`. -/
structure ToolResult where
  tool_name : String
  success : Bool
  result : Json
  error : Option String

/-- The two exception classes `execute` distinguishes: `TypeError`
(parameter/arity mismatch, wherever raised) and any other `Exception`. -/
inductive PyErr where
  | typeError (msg : String) : PyErr
  | otherError (msg : String) : PyErr

/-- A registered tool instance: `none` models an object without an
`execute` attribute (the `hasattr` check); `some f` models calling
`tool.execute(**parameters)`, which returns a value or raises. -/
abbrev PyTool := Option (List (String × Json) → Except PyErr Json)

/-- Python `repr` of a string (quoting only; tool names contain no quotes). -/
def pyStrRepr (s : String) : String := "\x27" ++ s ++ "\x27"

/-- Python `", ".join`. -/
def joinCommaSpace : List String → String
  | [] => ""
  | [s] => s
  | s :: rest => s ++ ", " ++ joinCommaSpace rest

/-- Python `str` of a list of strings (`list(self.tools.keys())`). -/
def pyListRepr (names : List String) : String :=
  "[" ++ joinCommaSpace (names.map pyStrRepr) ++ "]"

/-- The unknown-tool error text, enumerating the registered tool names. -/
def unknownToolError (name : String) (known : List String) : String :=
  "工具 \x27" ++ name ++ "\x27 不存在。可用工具: " ++ pyListRepr known

/-- The missing-`execute`-method error text. -/
def noExecuteError (name : String) : String :=
  "工具 \x27" ++ name ++ "\x27 没有execute方法"

/-- The `TypeError` branch's error text. -/
def paramErrorMsg (e : String) : String := "参数错误: " ++ e

/-- The generic-`Exception` branch's error text. -/
def execErrorMsg (e : String) : String := "执行错误: " ++ e

/-- The `DefaultToolExecutor.execute`: total — every request maps to a
`ToolResult`, never an exception.  The registry `tools` is the `self.tools`
dict (name, instance) in insertion order. -/
def DefaultToolExecutor.execute (tools : List (String × PyTool))
    (tool_call : ToolCall) : ToolResult :=
  match List.lookup tool_call.tool_name tools with
  | none =>
    { tool_name := tool_call.tool_name, success := false, result := .null,
      error := some (unknownToolError tool_call.tool_name (tools.map Prod.fst)) }
  | some none =>
    { tool_name := tool_call.tool_name, success := false, result := .null,
      error := some (noExecuteError tool_call.tool_name) }
  | some (some f) =>
    match f tool_call.parameters with
    | .ok v =>
      { tool_name := tool_call.tool_name, success := true, result := v,
        error := none }
    | .error (.typeError e) =>
      { tool_name := tool_call.tool_name, success := false, result := .null,
        error := some (paramErrorMsg e) }
    | .error (.otherError e) =>
      { tool_name := tool_call.tool_name, success := false, result := .null,
        error := some (execErrorMsg e) }

/-- A two-tool registry: a calculator that adds the `a` and `b` parameters
when both are numbers (raising `TypeError` otherwise) and an object with no
`execute` method. -/
def sampleTools : List (String × PyTool) :=
  [("calculator", some fun params =>
      match Json.lookup params "a", Json.lookup params "b" with
      | some (.num a), some (.num b) => .ok (.num (a + b))
      | _, _ => .error (.typeError "missing operand")),
   ("broken", none)]

/-! ## Decision production (`llm_thinking_engine.py` / `coordinator.py`) -/

/-- The `ActionType` enumeration (member names `DIRECT_REPLY`, `CALL_TOOL`,
`ASK_USER`, `DELEGATE`). -/
inductive ActionType where
  | direct_reply : ActionType
  | call_tool : ActionType
  | ask_user : ActionType
  | delegate : ActionType
deriving DecidableEq

/-- The Python enum member name. -/
def ActionType.enumName : ActionType → String
  | .direct_reply => "DIRECT_REPLY"
  | .call_tool => "CALL_TOOL"
  | .ask_user => "ASK_USER"
  | .delegate => "DELEGATE"

/-- The `ActionType[label]`: member lookup by name; `none` models the
`KeyError`. -/
def ActionType.ofName (s : String) : Option ActionType :=
  if s = "DIRECT_REPLY" then some .direct_reply
  else if s = "CALL_TOOL" then some .call_tool
  else if s = "ASK_USER" then some .ask_user
  else if s = "DELEGATE" then some .delegate
  else none

/-- The `str(ActionType.X)`. -/
def ActionType.pyStr (a : ActionType) : String := "ActionType." ++ a.enumName

/-- Python `str.upper()` (ASCII case mapping). -/
def pyUpper (s : String) : String := String.mk (s.data.map Char.toUpper)

/-- The `action_content` slot of a `Thought`: Python stores either the raw
decoded JSON value or a coerced `ToolCall` object. -/
inductive ActionContent where
  | jv (j : Json) : ActionContent
  | call (tc : ToolCall) : ActionContent

/-- The `Thought` dataclass: the structured decision.
Confidence is modelled as a rational. -/
structure Thought where
  action_type : ActionType
  action_content : ActionContent
  confidence : ℚ
  reasoning : String

mutual
/-- Python `str()` of a decoded JSON value (number formatting and nested
container repr approximated). -/
def pyStr : Json → String
  | .null => "None"
  | .bool true => "True"
  | .bool false => "False"
  | .num q => if q.den = 1 then toString q.num else toString q
  | .str s => s
  | .arr l => "[" ++ pyStrCommaList l ++ "]"
  | .obj kvs => "\x7b" ++ pyStrKVList kvs ++ "\x7d"
def pyStrCommaList : List Json → String
  | [] => ""
  | [x] => pyStr x
  | x :: xs => pyStr x ++ ", " ++ pyStrCommaList xs
def pyStrKVList : List (String × Json) → String
  | [] => ""
  | [(k, v)] => pyStrRepr k ++ ": " ++ pyStr v
  | (k, v) :: xs => pyStrRepr k ++ ": " ++ pyStr v ++ ", " ++ pyStrKVList xs
end

/-- Decimal-literal subset of Python `float(str)` (sign, digits, optional
fraction); other accepted forms (exponents, `inf`, …) are out of the
claims' scope. -/
def parseDecimalString (s : String) : Option ℚ :=
  let core : String → Option ℚ := fun t =>
    match t.split (· = '.') with
    | [w] => (decimalToNat w).map (fun n => (n : ℚ))
    | [w, f] =>
      match decimalToNat w, decimalToNat f with
      | some n, some m => some ((n : ℚ) + (m : ℚ) / (10 : ℚ) ^ f.length)
      | _, _ => none
    | _ => none
  if s.startsWith "-" then (core (s.drop 1)).map Neg.neg else core s

/-- The `float(parsed.get("confidence", 0.5))`: a missing key defaults to 0.5;
numbers (and bools) convert; numeric strings parse; anything else raises
(`TypeError`/`ValueError`), modelled as `.error`. -/
def pyFloat : Option Json → Except String ℚ
  | none => .ok (1/2)
  | some (.num q) => .ok q
  | some (.bool b) => .ok (if b then 1 else 0)
  | some (.str s) =>
    match parseDecimalString s with
    | some q => .ok q
    | none => .error "ValueError: could not convert string to float"
  | some .null => .error "TypeError: float() argument is None"
  | some (.arr _) => .error "TypeError: float() argument is a list"
  | some (.obj _) => .error "TypeError: float() argument is a dict"

/-- The `parsed.get("action_type", "DIRECT_REPLY").upper()`: a present
non-string value has no `.upper` and raises. -/
def upperLabel (parsed : List (String × Json)) : Except String String :=
  match Json.lookup parsed "action_type" with
  | none => .ok "DIRECT_REPLY"
  | some (.str s) => .ok (pyUpper s)
  | some _ => .error "AttributeError: upper"

/-- Coercion of a structured `action_content` into a `ToolCall`
(missing fields default to empty text / empty dict). -/
def coerceToolCall (kvs : List (String × Json)) : ToolCall where
  tool_name := match Json.lookup kvs "tool_name" with
    | some (.str s) => s
    | _ => ""
  parameters := match Json.lookup kvs "parameters" with
    | some (.obj p) => p
    | _ => []
  reason := match Json.lookup kvs "reason" with
    | some (.str s) => s
    | _ => ""

/-- The decision fields read out of the decoded top-level object
(the body of `_parse_llm_response` after `json.loads`); `.error` models an
exception reaching the surrounding `try`. -/
def thoughtOfParsed (parsed : List (String × Json)) (thinking : String) :
    Except String Thought :=
  match upperLabel parsed with
  | .error e => .error e
  | .ok labelUpper =>
    let action_type := (ActionType.ofName labelUpper).getD ActionType.direct_reply
    let content := (Json.lookup parsed "action_content").getD (.str "")
    let action_content : ActionContent :=
      match action_type, content with
      | .call_tool, .obj kvs => .call (coerceToolCall kvs)
      | _, j => .jv j
    match pyFloat (Json.lookup parsed "confidence") with
    | .error e => .error e
    | .ok confidence =>
      .ok { action_type := action_type, action_content := action_content,
            confidence := confidence,
            reasoning := match Json.lookup parsed "reasoning" with
                         | some (.str s) => s
                         | some j => pyStr j
                         | none => thinking }

/-- The outcome of the JSON-extraction step of `_parse_llm_response`
(string scanning and `json.loads` are external to the embedding): no
top-level `\x7b`…`\x7d` region in the response; a region that
`json.loads` raises on; or the decoded object's fields. -/
inductive Extracted where
  | noObj : Extracted
  | loadsRaise (e : String) : Extracted
  | ok (fields : List (String × Json)) : Extracted

/-- The fallback dict `_parse_llm_response` builds when the response holds
no JSON region (`thinking_content or "无法完全理解请求"`). -/
def defaultParsed (raw thinking : String) : List (String × Json) :=
  [("action_type", .str "DIRECT_REPLY"),
   ("action_content", .str raw),
   ("confidence", .num (1/2)),
   ("reasoning", .str (if thinking = "" then "无法完全理解请求" else thinking))]

/-- The `_parse_llm_response`: total — every decode failure is absorbed into
the low-confidence fallback `Thought`, never an exception. -/
def parseLLMResponse (raw thinking : String) (ex : Extracted) : Thought :=
  let attempt : Except String Thought :=
    match ex with
    | .loadsRaise e => .error e
    | .ok fields => thoughtOfParsed fields thinking
    | .noObj => thoughtOfParsed (defaultParsed raw thinking) thinking
  match attempt with
  | .ok th => th
  | .error e =>
    { action_type := .direct_reply,
      action_content := .jv (.str ("处理请求时出错：" ++ e ++ "，原始响应：" ++ raw)),
      confidence := 3/10,
      reasoning := "解析错误：" ++ e }

/-- The decoded object of C4's counterexample: CALL_TOOL with a plain-text
payload. -/
def c4fields : List (String × Json) :=
  [("action_type", .str "CALL_TOOL"),
   ("action_content", .str "use the calculator")]

/-! ## Interaction driver (`coordinator.py`)

`InteractionContext.conversation_manager` is threaded beside the context as
an explicit `Option ConversationManager` value (state passing);
`datetime.now()` inside message appends is modelled by the caller's clock
value `now`. -/

/-- The `InteractionContext` dataclass. -/
structure InteractionContext where
  user_input : String
  conversation_history : List (String × String)
  tool_results : List ToolResult
  thought_chain : List Thought
  max_iterations : Nat
  all_tool_info : Option Json

/-- The `current_iteration` property. -/
def InteractionContext.current_iteration (ctx : InteractionContext) : Nat :=
  ctx.thought_chain.length

/-- The `has_reached_max_iterations` property. -/
def InteractionContext.has_reached_max_iterations
    (ctx : InteractionContext) : Bool :=
  decide (ctx.max_iterations ≤ ctx.current_iteration)

/-- The `add_thought`. -/
def InteractionContext.add_thought (ctx : InteractionContext) (t : Thought) :
    InteractionContext :=
  { ctx with thought_chain := ctx.thought_chain ++ [t] }

/-- The `add_tool_result`. -/
def InteractionContext.add_tool_result (ctx : InteractionContext)
    (r : ToolResult) : InteractionContext :=
  { ctx with tool_results := ctx.tool_results ++ [r] }

/-- The fixed budget-exceeded fallback response. -/
def budgetExceededMsg : String :=
  "处理请求时超过最大迭代次数，请简化您的问题后重试。"

/-- The synthesized tool-failure response
(`f"执行工具 \x7bresult.tool_name\x7d 失败: \x7bresult.error\x7d"`). -/
def toolFailedMsg (name : String) (error : Option String) : String :=
  "执行工具 " ++ name ++ " 失败: " ++
    (match error with
     | some e => e
     | none => "None")

/-- The text the driver returns for a terminal decision's payload (Python
returns the payload object itself, its `str` form shown here). -/
def ActionContent.asText : ActionContent → String
  | .jv (.str s) => s
  | .jv j => pyStr j
  | .call tc =>
    "ToolCall(tool_name=" ++ pyStrRepr tc.tool_name ++ ", parameters="
      ++ pyStr (.obj tc.parameters) ++ ", reason=" ++ pyStrRepr tc.reason ++ ")"

/-- The `_finalize_response`: appends the response as an assistant message with
metadata (last action kind, compact outcome summary), then updates the
conversation context — all only when a conversation manager is in use. -/
def finalizeResponse (response : String) (ctx : InteractionContext)
    (mgr : Option ConversationManager) (now : DateTime) :
    String × Option ConversationManager :=
  match mgr with
  | some cm =>
    let metadata : List (String × Json) :=
      [("action_type",
        match ctx.thought_chain.getLast? with
        | some th => .str th.action_type.pyStr
        | none => .null),
       ("tool_results", .arr (ctx.tool_results.map fun r =>
          .obj [("tool", .str r.tool_name), ("success", .bool r.success)]))]
    let cm1 := (cm.add_assistant_message response (some metadata) now).1
    let cm2 :=
      if ctx.thought_chain.isEmpty then cm1
      else cm1.update_context
        (some (ctx.tool_results.map fun r =>
          .obj [("tool_name", .str r.tool_name),
                ("success", .bool r.success),
                ("result", .str ((pyStr r.result).take 200))]))
        (some (ctx.user_input.take 100))
        (some (match ctx.thought_chain.getLast? with
               | some th => th.action_type.pyStr
               | none => ""))
        none
    (response, some cm2)
  | none => (response, none)

/-- The `while not context.has_reached_max_iterations` loop of
`start_interaction`.  Terminates because every iteration appends exactly
one thought while `max_iterations` stays fixed.  The `.error` result
models the `AttributeError` that escapes when a CALL_TOOL decision with a
non-`ToolCall` payload reaches the executor's attribute access. -/
def runLoop (engine : InteractionContext → Thought)
    (execF : ToolCall → ToolResult) (ctx : InteractionContext)
    (mgr : Option ConversationManager) (now : DateTime) :
    Except String String × InteractionContext × Option ConversationManager :=
  if h : ctx.max_iterations ≤ ctx.thought_chain.length then
    let fin := finalizeResponse budgetExceededMsg ctx mgr now
    (.ok fin.1, ctx, fin.2)
  else
    let thought := engine ctx
    let ctx1 := ctx.add_thought thought
    match thought.action_type with
    | .call_tool =>
      match thought.action_content with
      | .call tc =>
        let result := execF tc
        let ctx2 := ctx1.add_tool_result result
        if result.success then
          runLoop engine execF ctx2 mgr now
        else
          let fin := finalizeResponse
            (toolFailedMsg result.tool_name result.error) ctx2 mgr now
          (.ok fin.1, ctx2, fin.2)
      | .jv _ =>
        (.error "AttributeError: object has no attribute tool_name", ctx1, mgr)
    | .direct_reply =>
      let fin := finalizeResponse thought.action_content.asText ctx1 mgr now
      (.ok fin.1, ctx1, fin.2)
    | .ask_user =>
      let fin := finalizeResponse thought.action_content.asText ctx1 mgr now
      (.ok fin.1, ctx1, fin.2)
    | .delegate =>
      let fin := finalizeResponse thought.action_content.asText ctx1 mgr now
      (.ok fin.1, ctx1, fin.2)
  termination_by ctx.max_iterations - ctx.thought_chain.length
  decreasing_by
    simp [InteractionContext.add_thought, InteractionContext.add_tool_result]
    omega

/-- The `Coordinator.start_interaction`: appends the user message (when the
conversation manager is in use), builds the turn context with an empty
decision/outcome trail, and runs the bounded loop. -/
def start_interaction (engine : InteractionContext → Thought)
    (execF : ToolCall → ToolResult) (max_iterations : Nat)
    (mgr : ConversationManager) (user_input : String)
    (history : Option (List (String × String)))
    (use_conversation_manager : Bool) (all_tool_info : Option Json)
    (now : DateTime) :
    Except String String × InteractionContext × ConversationManager :=
  let mgr1 := if use_conversation_manager
              then (mgr.add_user_message user_input now).1 else mgr
  let hist := match history with
    | some h => h
    | none => if use_conversation_manager
              then mgr1.get_conversation_history else []
  let ctx : InteractionContext :=
    { user_input := user_input, conversation_history := hist,
      tool_results := [], thought_chain := [],
      max_iterations := max_iterations, all_tool_info := all_tool_info }
  let out := runLoop engine execF ctx
      (if use_conversation_manager then some mgr1 else none) now
  (out.1, out.2.1, out.2.2.getD mgr1)

/-- A decision producer that always calls a tool. -/
def alwaysCallThought : Thought where
  action_type := .call_tool
  action_content := .call ⟨"t", [], "always"⟩
  confidence := 1
  reasoning := "always call"

/-- A tool executor whose every call succeeds. -/
def okExecutor : ToolCall → ToolResult := fun tc =>
  { tool_name := tc.tool_name, success := true, result := .null, error := none }

/-! ## Properties of the embedded operations -/

theorem digitChar_roundtrip {d : Nat} (h : d < 10) :
    charToDigit (digitChar d) = d ∧ isDigitChar (digitChar d) = true := by
  interval_cases d <;> exact ⟨by decide, by decide⟩

theorem fromisoformat_isoformat (t : DateTime) :
    DateTime.fromisoformat (DateTime.isoformat t) = some t := by
  unfold DateTime.fromisoformat DateTime.isoformat natToDecimal
  by_cases h : t = 0
  · subst h; decide
  · simp only [h, if_false]
    have hlt : ∀ d ∈ Nat.digits 10 t, d < 10 :=
      fun d hd => Nat.digits_lt_base (by norm_num) hd
    rw [decimalToNat]
    have hdata : (String.mk (((Nat.digits 10 t).map digitChar).reverse)).data
        = ((Nat.digits 10 t).map digitChar).reverse := rfl
    rw [hdata]
    have hne : ((Nat.digits 10 t).map digitChar).reverse ≠ [] := by
      simp [Nat.digits_ne_nil_iff_ne_zero, h]
    have hall : (((Nat.digits 10 t).map digitChar).reverse).all isDigitChar = true := by
      rw [List.all_eq_true]
      intro c hc
      rw [List.mem_reverse, List.mem_map] at hc
      obtain ⟨d, hd, rfl⟩ := hc
      exact (digitChar_roundtrip (hlt d hd)).2
    rw [if_pos ⟨hne, hall⟩]
    congr 1
    rw [List.map_reverse, List.reverse_reverse, List.map_map]
    have hmap : ((Nat.digits 10 t).map (charToDigit ∘ digitChar)) = Nat.digits 10 t := by
      conv_rhs => rw [← List.map_id (Nat.digits 10 t)]
      exact List.map_congr_left fun d hd => (digitChar_roundtrip (hlt d hd)).1
    rw [hmap, Nat.ofDigits_digits]

theorem appendEvent_messages (cm : ConversationManager) (msg : Message) :
    (appendEvent cm msg).messages
      = if cm.max_history_length < cm.messages.length + 1
        then (cm.messages ++ [msg]).tail else cm.messages ++ [msg] := by
  simp [appendEvent, ConversationManager.add_message]

theorem appendEvent_cap (cm : ConversationManager) (msg : Message) :
    (appendEvent cm msg).max_history_length = cm.max_history_length := by
  simp [appendEvent, ConversationManager.add_message]

theorem foldl_appendEvent_messages (items : List Message)
    (cm : ConversationManager)
    (h : cm.messages.length ≤ cm.max_history_length) :
    (items.foldl appendEvent cm).messages
        = (cm.messages ++ items).drop
            ((cm.messages ++ items).length - cm.max_history_length)
      ∧ (items.foldl appendEvent cm).max_history_length
        = cm.max_history_length := by
  induction items generalizing cm with
  | nil =>
    simp only [List.foldl_nil, List.append_nil, and_true]
    have : cm.messages.length - cm.max_history_length = 0 := by omega
    rw [this, List.drop_zero]
  | cons msg rest ih =>
    simp only [List.foldl_cons]
    have hcap := appendEvent_cap cm msg
    have hmsgs := appendEvent_messages cm msg
    by_cases hc : cm.max_history_length < cm.messages.length + 1
    · -- the log is full: the oldest message is evicted
      have hlen : cm.messages.length = cm.max_history_length := by omega
      rw [if_pos hc] at hmsgs
      have h' : (appendEvent cm msg).messages.length
          ≤ (appendEvent cm msg).max_history_length := by
        rw [hmsgs, hcap]
        simp [List.length_tail]
        omega
      obtain ⟨ih1, ih2⟩ := ih (appendEvent cm msg) h'
      refine ⟨?_, by rw [ih2, hcap]⟩
      rw [ih1, hmsgs, hcap]
      have htail : (cm.messages ++ [msg]).tail = (cm.messages ++ [msg]).drop 1 :=
        (List.drop_one _).symm
      rw [htail, ← List.drop_append_of_le_length (by simp), List.append_assoc,
        List.singleton_append, List.drop_drop]
      congr 1
      simp only [List.length_drop, List.length_append, List.length_cons]
      omega
    · rw [if_neg hc] at hmsgs
      have h' : (appendEvent cm msg).messages.length
          ≤ (appendEvent cm msg).max_history_length := by
        rw [hmsgs, hcap]; simp; omega
      obtain ⟨ih1, ih2⟩ := ih (appendEvent cm msg) h'
      refine ⟨?_, by rw [ih2, hcap]⟩
      rw [ih1, hmsgs, hcap, List.append_assoc, List.singleton_append]

/-- C6: starting from a fresh store of capacity `max_history_length`,
appending `N ≤ max_history_length` messages leaves exactly those `N`
messages in insertion order, and appending `max_history_length + k`
messages leaves exactly the most recent `max_history_length` of them
(the oldest `k` evicted first). -/
theorem history_capacity_fifo (cap : Nat) (now : DateTime)
    (items : List Message) :
    (items.length ≤ cap →
      (items.foldl appendEvent (ConversationManager.mkNew cap now)).messages
        = items)
    ∧ (items.foldl appendEvent (ConversationManager.mkNew cap now)).messages
        = items.drop (items.length - cap) := by
  have hbase : (ConversationManager.mkNew cap now).messages.length
      ≤ (ConversationManager.mkNew cap now).max_history_length := by
    simp [ConversationManager.mkNew]
  obtain ⟨h1, _⟩ := foldl_appendEvent_messages items _ hbase
  have hm : (ConversationManager.mkNew cap now).messages = [] := rfl
  have hcap' : (ConversationManager.mkNew cap now).max_history_length = cap := rfl
  rw [hm, hcap', List.nil_append] at h1
  constructor
  · intro hle
    rw [h1]
    have : items.length - cap = 0 := by omega
    rw [this, List.drop_zero]
  · exact h1

theorem history_capacity_fifo_witness :
    (([⟨.user, "a", 0, []⟩, ⟨.user, "b", 1, []⟩] :
        List Message).foldl appendEvent
          (ConversationManager.mkNew 2 0)).messages
      = ([⟨.user, "a", 0, []⟩, ⟨.user, "b", 1, []⟩] : List Message)
    ∧ (([⟨.user, "a", 0, []⟩, ⟨.user, "b", 1, []⟩, ⟨.user, "c", 2, []⟩] :
        List Message).foldl appendEvent
          (ConversationManager.mkNew 2 0)).messages
      = ([⟨.user, "a", 0, []⟩, ⟨.user, "b", 1, []⟩, ⟨.user, "c", 2, []⟩] :
        List Message).drop 1 := by
  constructor
  · exact (history_capacity_fifo 2 0
      [⟨.user, "a", 0, []⟩, ⟨.user, "b", 1, []⟩]).1 (by decide)
  · have h := (history_capacity_fifo 2 0
      [⟨.user, "a", 0, []⟩, ⟨.user, "b", 1, []⟩, ⟨.user, "c", 2, []⟩]).2
    simpa using h

/-- C10: `get_recent_messages count` returns the last `count` messages in
order when `0 < count ≤ len`, all messages when `count > len`, and — because
the Python slice `[-0:]` denotes the whole list — the entire message list
(not `[]`) when `count = 0`. -/
theorem get_recent_messages_spec (m : ConversationManager) (count : Nat) :
    (0 < count → count ≤ m.messages.length →
      m.get_recent_messages count = m.messages.drop (m.messages.length - count)
        ∧ (m.get_recent_messages count).length = count)
    ∧ (m.messages.length < count → m.get_recent_messages count = m.messages)
    ∧ (count = 0 → m.get_recent_messages count = m.messages) := by
  unfold ConversationManager.get_recent_messages
  refine ⟨fun hpos hle => ?_, fun hgt => ?_, fun h0 => ?_⟩
  · have hne : ¬ m.messages.isEmpty := by
      cases hm : m.messages with
      | nil => simp [hm] at hle; omega
      | cons a l => simp [hm]
    rw [if_neg (by simpa using hne), if_neg (by omega)]
    exact ⟨rfl, by simp [List.length_drop]; omega⟩
  · by_cases hm : m.messages.isEmpty
    · rw [if_pos hm]
      rw [List.isEmpty_iff] at hm
      exact hm.symm
    · rw [if_neg hm, if_neg (by omega)]
      have : m.messages.length - count = 0 := by omega
      rw [this, List.drop_zero]
  · subst h0
    by_cases hm : m.messages.isEmpty
    · rw [if_pos hm]
      rw [List.isEmpty_iff] at hm
      exact hm.symm
    · rw [if_neg hm, if_pos rfl]

theorem get_recent_messages_spec_witness :
    (let m : ConversationManager :=
      { messages := [⟨.user, "a", 0, []⟩, ⟨.user, "b", 1, []⟩],
        context := {}, max_history_length := 20,
        conversation_id := "conv_0", start_time := 0 }
     m.get_recent_messages 0 = m.messages
       ∧ m.get_recent_messages 1 = m.messages.drop 1) := by
  constructor
  · exact (get_recent_messages_spec _ 0).2.2 rfl
  · exact ((get_recent_messages_spec _ 1).1 (by decide) (by decide)).1

theorem jsonToOptStr_optStrJson (o : Option String) :
    jsonToOptStr (optStrJson o) = o := by cases o <;> rfl

theorem MessageRole.ofValue_value (r : MessageRole) :
    MessageRole.ofValue r.value = some r := by cases r <;> rfl

theorem message_fromJson_toJson (msg : Message) :
    Message.fromJson msg.toJson = some msg := by
  simp [Message.toJson, Message.fromJson, Json.lookup,
    MessageRole.ofValue_value, fromisoformat_isoformat]

theorem decodeMessages_map_toJson (l : List Message) :
    decodeMessages (l.map Message.toJson) = some l := by
  induction l with
  | nil => rfl
  | cons a t ih => simp [decodeMessages, message_fromJson_toJson, ih]

theorem context_fromJson_toJson (c : ConversationContext) :
    ConversationContext.fromJson (some c.toJson) = some c := by
  simp [ConversationContext.toJson, ConversationContext.fromJson, Json.lookup,
    jsonToOptStr_optStrJson]

theorem decode_serialize (m : ConversationManager) :
    ConversationManager.decode m.serialize
      = some { messages := m.messages, context := m.context,
               max_history_length := 20,
               conversation_id := m.conversation_id,
               start_time := m.start_time } := by
  simp [ConversationManager.serialize, ConversationManager.decode, Json.lookup,
    Json.asObj, Json.asStr, Json.asArr, fromisoformat_isoformat,
    decodeMessages_map_toJson, context_fromJson_toJson]

/-- C7: saving a store to a file and loading that file back yields a store
equal to the original in session id, start time, messages (role, content,
timestamp and metadata included) and every context field. -/
theorem save_load_roundtrip (m : ConversationManager) (fs : Option Json)
    (now2 : DateTime) :
    (ConversationManager.load_from_file
        (m.save_to_file .ok fs).2.1 now2).conversation_id = m.conversation_id
    ∧ (ConversationManager.load_from_file
        (m.save_to_file .ok fs).2.1 now2).start_time = m.start_time
    ∧ (ConversationManager.load_from_file
        (m.save_to_file .ok fs).2.1 now2).messages = m.messages
    ∧ (ConversationManager.load_from_file
        (m.save_to_file .ok fs).2.1 now2).context = m.context := by
  have hsave : (m.save_to_file .ok fs).2.1 = some m.serialize := rfl
  rw [hsave]
  simp [ConversationManager.load_from_file, decode_serialize]

/-- C8 (amended): loading from a missing or unreadable file, or from a
document the decoder raises on, yields a fresh empty store; a failure while
saving is silently swallowed — no exception or report reaches the caller —
and the in-memory store's state is unchanged.  No guarantee is made about
the file: `open(filepath, "w")` truncates it before `json.dump` runs, so a
failure during the dump leaves truncated, unreadable content behind. -/
theorem persistence_failure_behavior :
    (∀ now : DateTime,
      ConversationManager.load_from_file none now
        = ConversationManager.mkNew 20 now)
    ∧ (∀ (j : Json) (now : DateTime), ConversationManager.decode j = none →
        ConversationManager.load_from_file (some j) now
          = ConversationManager.mkNew 20 now)
    ∧ (∀ now : DateTime, (ConversationManager.mkNew 20 now).messages = []
        ∧ (ConversationManager.mkNew 20 now).context = {})
    ∧ (∀ (m : ConversationManager) (w : WriteOutcome) (fs : Option Json),
        (m.save_to_file w fs).1 = m ∧ (m.save_to_file w fs).2.2 = none)
    ∧ (∀ (m : ConversationManager) (fs : Option Json),
        (m.save_to_file .dumpFail fs).2.1 = none) := by
  refine ⟨fun now => rfl, fun j now h => ?_, fun now => ⟨rfl, rfl⟩,
    fun m w fs => ?_, fun m fs => rfl⟩
  · simp [ConversationManager.load_from_file, h]
  · cases w <;> exact ⟨rfl, rfl⟩

theorem persistence_failure_behavior_witness :
    ConversationManager.load_from_file (some Json.null) 5
      = ConversationManager.mkNew 20 5
    ∧ ((ConversationManager.mkNew 7 3).save_to_file .openFail
        (some Json.null)).1 = ConversationManager.mkNew 7 3
    ∧ ((ConversationManager.mkNew 7 3).save_to_file .openFail
        (some Json.null)).2.2 = none
    ∧ ((ConversationManager.mkNew 7 3).save_to_file .dumpFail
        (some Json.null)).2.1 = none :=
  ⟨persistence_failure_behavior.2.1 Json.null 5 rfl,
   (persistence_failure_behavior.2.2.2.1 _ .openFail _).1,
   (persistence_failure_behavior.2.2.2.1 _ .openFail _).2,
   persistence_failure_behavior.2.2.2.2 _ _⟩

/-- C8 counterexample: the original claim says a save failure "is reported
to the caller"; in the code the `except` block swallows it (`pass`, with
even the logging commented out), so on a failing write — here `json.dump`
raising after `open` truncated the file — the caller receives no report at
all: the propagated-exception component is `none`. -/
theorem save_failure_not_reported :
    (ConversationManager.mkNew 20 0).save_to_file .dumpFail (some Json.null)
      = (ConversationManager.mkNew 20 0, none, none) := rfl

theorem decodeMessages_length :
    ∀ (l : List Json) (l' : List Message),
      decodeMessages l = some l' → l'.length = l.length := by
  intro l
  induction l with
  | nil => intro l' h; simp [decodeMessages] at h; simp [← h]
  | cons a t ih =>
    intro l' h
    rw [decodeMessages] at h
    cases hfa : Message.fromJson a with
    | none => rw [hfa] at h; simp at h
    | some b =>
      rw [hfa] at h
      cases hrest : decodeMessages t with
      | none => rw [hrest] at h; simp at h
      | some bs =>
        rw [hrest] at h
        simp only [Option.some.injEq] at h
        rw [← h]
        simp [ih bs hrest]

theorem Json.asArr_eq_some {v : Json} {l : List Json}
    (h : Json.asArr v = some l) : v = .arr l := by
  cases v <;> simp [Json.asArr] at h <;> simp [h]

theorem Json.asObj_eq_some {v : Json} {kvs : List (String × Json)}
    (h : Json.asObj v = some kvs) : v = .obj kvs := by
  cases v <;> simp [Json.asObj] at h <;> simp [h]

/-- C9: a successfully decoded persisted document yields a store whose
capacity is the constructor default `20` (the original capacity is not
persisted), containing every message of the document — `load_from_file`
appends directly to `messages`, bypassing `add_message`, so no eviction
happens even for more than 20 messages. -/
theorem load_uses_default_capacity_no_eviction (j : Json)
    (m : ConversationManager) (h : ConversationManager.decode j = some m) :
    m.max_history_length = 20
    ∧ (∀ now : DateTime, ConversationManager.load_from_file (some j) now = m)
    ∧ ∃ fields msgDocs, j = .obj fields
        ∧ Json.lookup fields "messages" = some (.arr msgDocs)
        ∧ decodeMessages msgDocs = some m.messages
        ∧ m.messages.length = msgDocs.length := by
  have hload : ∀ now : DateTime,
      ConversationManager.load_from_file (some j) now = m := by
    intro now
    simp [ConversationManager.load_from_file, h]
  rw [ConversationManager.decode] at h
  rw [Option.bind_eq_some] at h
  obtain ⟨fields, hobj, h⟩ := h
  rw [Option.bind_eq_some] at h
  obtain ⟨cid, hcid, h⟩ := h
  rw [Option.bind_eq_some] at h
  obtain ⟨ts, hts, h⟩ := h
  rw [Option.bind_eq_some] at h
  obtain ⟨st, hst, h⟩ := h
  rw [Option.bind_eq_some] at h
  obtain ⟨msgDocs, hmd, h⟩ := h
  rw [Option.bind_eq_some] at h
  obtain ⟨msgs, hmsgs, h⟩ := h
  rw [Option.bind_eq_some] at h
  obtain ⟨ctx, hctx, h⟩ := h
  rw [Option.some_inj] at h
  subst h
  refine ⟨rfl, hload, fields, msgDocs, Json.asObj_eq_some hobj, ?_, hmsgs, ?_⟩
  · rw [Option.bind_eq_some] at hmd
    obtain ⟨v, hv, hva⟩ := hmd
    rw [hv, Json.asArr_eq_some hva]
  · exact decodeMessages_length msgDocs msgs hmsgs

theorem load_uses_default_capacity_no_eviction_witness :
    bigLoaded.max_history_length = 20
    ∧ ConversationManager.load_from_file (some bigStore.serialize) 7 = bigLoaded
    ∧ bigLoaded.messages.length = 21 := by
  have h := load_uses_default_capacity_no_eviction bigStore.serialize bigLoaded
    (by rfl)
  exact ⟨h.1, h.2.1 7, by rfl⟩

theorem string_append_left_ne_empty (s t : String) (h : s ≠ "") :
    s ++ t ≠ "" := by
  intro he
  apply h
  have hd : s.data ++ t.data = [] := by
    have := congrArg String.data he
    rwa [String.data_append] at this
  have hs : s.data = [] := by
    cases hx : s.data with
    | nil => rfl
    | cons a l => rw [hx] at hd; simp at hd
  apply String.ext
  rw [hs]

theorem paramErrorMsg_ne_execErrorMsg (m₁ m₂ : String) :
    paramErrorMsg m₁ ≠ execErrorMsg m₂ := by
  intro h
  have hd := congrArg String.data h
  rw [paramErrorMsg, execErrorMsg, String.data_append, String.data_append] at hd
  have h₁ : ("参数错误: " : String).data = '参' :: "数错误: ".data := rfl
  rw [h₁] at hd
  have h₂ : ("执行错误: " : String).data = '执' :: "行错误: ".data := rfl
  rw [h₂] at hd
  simp at hd

theorem mem_data_sub_joinCommaSpace (n : String) (names : List String)
    (h : n ∈ names) :
    ∃ pre post,
      pre ++ n.data ++ post = (joinCommaSpace (names.map pyStrRepr)).data := by
  induction names with
  | nil => cases h
  | cons x rest ih =>
    cases h with
    | head =>
      cases rest with
      | nil =>
        refine ⟨"\x27".data, "\x27".data, ?_⟩
        show _ = (pyStrRepr n).data
        simp [pyStrRepr, String.data_append, List.append_assoc]
      | cons y t =>
        refine ⟨"\x27".data,
          ("\x27" ++ ", " ++ joinCommaSpace ((y :: t).map pyStrRepr)).data, ?_⟩
        show _ = (pyStrRepr n ++ ", " ++ joinCommaSpace ((y :: t).map pyStrRepr)).data
        simp [pyStrRepr, String.data_append, List.append_assoc]
    | tail _ hmem =>
      obtain ⟨pre, post, hsub⟩ := ih hmem
      cases rest with
      | nil => cases hmem
      | cons y t =>
        refine ⟨(pyStrRepr x ++ ", ").data ++ pre, post, ?_⟩
        show _ = (pyStrRepr x ++ ", " ++ joinCommaSpace ((y :: t).map pyStrRepr)).data
        rw [String.data_append, String.data_append, ← hsub]
        simp [List.append_assoc]

theorem mem_data_sub_unknownToolError (n name : String) (known : List String)
    (h : n ∈ known) :
    ∃ pre post, pre ++ n.data ++ post = (unknownToolError name known).data := by
  obtain ⟨pre, post, hsub⟩ := mem_data_sub_joinCommaSpace n known h
  refine ⟨("工具 \x27" ++ name ++ "\x27 不存在。可用工具: " ++ "[").data ++ pre,
    post ++ "]".data, ?_⟩
  simp only [unknownToolError, pyListRepr, String.data_append]
  rw [← hsub]
  simp [List.append_assoc]

/-- C3: `execute` is a total function of the request (it never raises) and:
an unknown tool name gives `success = false` with the error enumerating the
known tool names (each registered name occurs in the error text); a
registered tool whose callable raises gives `success = false` with a
non-empty error, `TypeError`s tagged `参数错误:` and other exceptions tagged
`执行错误:` (the two tags are distinguishable); a successful call gives
`success = true` carrying the tool's return value with no error. -/
theorem execute_never_raises_contract (tools : List (String × PyTool))
    (tc : ToolCall) :
    (List.lookup tc.tool_name tools = none →
      (DefaultToolExecutor.execute tools tc).success = false
      ∧ (DefaultToolExecutor.execute tools tc).error
          = some (unknownToolError tc.tool_name (tools.map Prod.fst))
      ∧ (∀ n ∈ tools.map Prod.fst, ∃ pre post,
          pre ++ n.data ++ post
            = (unknownToolError tc.tool_name (tools.map Prod.fst)).data)
      ∧ unknownToolError tc.tool_name (tools.map Prod.fst) ≠ "")
    ∧ (∀ f e, List.lookup tc.tool_name tools = some (some f) →
        f tc.parameters = .error e →
        (DefaultToolExecutor.execute tools tc).success = false
        ∧ ∃ msg, (DefaultToolExecutor.execute tools tc).error = some msg
          ∧ msg ≠ ""
          ∧ (match e with
             | .typeError m => msg = paramErrorMsg m
             | .otherError m => msg = execErrorMsg m)
          ∧ (∀ m₁ m₂, paramErrorMsg m₁ ≠ execErrorMsg m₂))
    ∧ (∀ f v, List.lookup tc.tool_name tools = some (some f) →
        f tc.parameters = .ok v →
        (DefaultToolExecutor.execute tools tc).success = true
        ∧ (DefaultToolExecutor.execute tools tc).result = v
        ∧ (DefaultToolExecutor.execute tools tc).error = none) := by
  refine ⟨fun hnone => ?_, fun f e hf herr => ?_, fun f v hf hok => ?_⟩
  · have hx : DefaultToolExecutor.execute tools tc
        = { tool_name := tc.tool_name, success := false, result := .null,
            error := some (unknownToolError tc.tool_name
              (tools.map Prod.fst)) } := by
      simp only [DefaultToolExecutor.execute, hnone]
    rw [hx]
    refine ⟨rfl, rfl, fun n hn => mem_data_sub_unknownToolError n _ _ hn, ?_⟩
    unfold unknownToolError
    exact string_append_left_ne_empty _ _
      (string_append_left_ne_empty _ _
        (string_append_left_ne_empty _ _ (by decide)))
  · cases e with
    | typeError m =>
      have hx : DefaultToolExecutor.execute tools tc
          = { tool_name := tc.tool_name, success := false, result := .null,
              error := some (paramErrorMsg m) } := by
        simp only [DefaultToolExecutor.execute, hf, herr]
      rw [hx]
      exact ⟨rfl, paramErrorMsg m, rfl,
        string_append_left_ne_empty _ _ (by decide), rfl,
        paramErrorMsg_ne_execErrorMsg⟩
    | otherError m =>
      have hx : DefaultToolExecutor.execute tools tc
          = { tool_name := tc.tool_name, success := false, result := .null,
              error := some (execErrorMsg m) } := by
        simp only [DefaultToolExecutor.execute, hf, herr]
      rw [hx]
      exact ⟨rfl, execErrorMsg m, rfl,
        string_append_left_ne_empty _ _ (by decide), rfl,
        paramErrorMsg_ne_execErrorMsg⟩
  · have hx : DefaultToolExecutor.execute tools tc
        = { tool_name := tc.tool_name, success := true, result := v,
            error := none } := by
      simp only [DefaultToolExecutor.execute, hf, hok]
    rw [hx]
    exact ⟨rfl, rfl, rfl⟩

theorem execute_never_raises_contract_witness :
    (DefaultToolExecutor.execute sampleTools
        ⟨"unknown_tool", [], "r"⟩).success = false
    ∧ (DefaultToolExecutor.execute sampleTools
        ⟨"unknown_tool", [], "r"⟩).error
      = some (unknownToolError "unknown_tool" ["calculator", "broken"])
    ∧ (DefaultToolExecutor.execute sampleTools
        ⟨"calculator", [("a", .num 10), ("b", .num 5)], "r"⟩).result
      = .num 15
    ∧ (DefaultToolExecutor.execute sampleTools
        ⟨"calculator", [], "r"⟩).error = some (paramErrorMsg "missing operand") := by
  have h1 := (execute_never_raises_contract sampleTools
    ⟨"unknown_tool", [], "r"⟩).1 (by rfl)
  have h2 := (execute_never_raises_contract sampleTools
    ⟨"calculator", [("a", .num 10), ("b", .num 5)], "r"⟩).2.2
    _ (.num 15) (by rfl) (by simp [Json.lookup]; norm_num)
  have h3 := (execute_never_raises_contract sampleTools
    ⟨"calculator", [], "r"⟩).2.1 _ (.typeError "missing operand")
    (by rfl) (by rfl)
  refine ⟨h1.1, h1.2.1, h2.2.1, ?_⟩
  obtain ⟨msg, hmsg, -, hform, -⟩ := h3.2
  exact hmsg.trans (congrArg some hform)

theorem ActionType.ofName_enumName (a : ActionType) :
    ActionType.ofName a.enumName = some a := by cases a <;> rfl

/-- C4 (amended): when the decoded object carries a CALL_TOOL action label
but its payload is not a structured object, `_parse_llm_response` does not
fall back: it returns a CALL_TOOL decision whose payload is the raw
non-structured value, with the object's decoded confidence. -/
theorem calltool_nonstruct_passthrough (fields : List (String × Json))
    (raw thinking s : String) (j : Json) (q : ℚ)
    (hlabel : Json.lookup fields "action_type" = some (.str s))
    (hupper : pyUpper s = "CALL_TOOL")
    (hcontent : Json.lookup fields "action_content" = some j)
    (hnotdict : ∀ kvs, j ≠ .obj kvs)
    (hconf : pyFloat (Json.lookup fields "confidence") = .ok q) :
    (parseLLMResponse raw thinking (.ok fields)).action_type = .call_tool
    ∧ (parseLLMResponse raw thinking (.ok fields)).action_content = .jv j
    ∧ (parseLLMResponse raw thinking (.ok fields)).confidence = q := by
  cases j with
  | obj kvs => exact absurd rfl (hnotdict kvs)
  | null =>
    simp [parseLLMResponse, thoughtOfParsed, upperLabel, ActionType.ofName,
      hlabel, hupper, hcontent, hconf]
  | bool b =>
    simp [parseLLMResponse, thoughtOfParsed, upperLabel, ActionType.ofName,
      hlabel, hupper, hcontent, hconf]
  | num q' =>
    simp [parseLLMResponse, thoughtOfParsed, upperLabel, ActionType.ofName,
      hlabel, hupper, hcontent, hconf]
  | str s' =>
    simp [parseLLMResponse, thoughtOfParsed, upperLabel, ActionType.ofName,
      hlabel, hupper, hcontent, hconf]
  | arr l =>
    simp [parseLLMResponse, thoughtOfParsed, upperLabel, ActionType.ofName,
      hlabel, hupper, hcontent, hconf]

/-- C4 counterexample: on a CALL_TOOL object with a non-structured payload
the parser returns a CALL_TOOL decision carrying that payload (confidence
0.5), not the claimed REPLY fallback with confidence 0.3 — so a CALL_TOOL
decision with a non-`InvocationRequest` payload does reach the driver. -/
theorem calltool_nonstruct_counterexample :
    (parseLLMResponse "resp" "" (.ok c4fields)).action_type
        = ActionType.call_tool
    ∧ (parseLLMResponse "resp" "" (.ok c4fields)).action_content
        = .jv (.str "use the calculator")
    ∧ (parseLLMResponse "resp" "" (.ok c4fields)).confidence = 1/2
    ∧ ¬ ((parseLLMResponse "resp" "" (.ok c4fields)).action_type
            = ActionType.direct_reply
         ∧ (parseLLMResponse "resp" "" (.ok c4fields)).confidence = 3/10) := by
  refine ⟨rfl, rfl, rfl, ?_⟩
  intro h
  exact absurd h.1 (by decide)

theorem calltool_nonstruct_passthrough_witness :
    (parseLLMResponse "resp" "think" (.ok
        [("action_type", .str "call_tool"), ("action_content", .str "hi"),
         ("confidence", .num (7/10))])).action_type = .call_tool
    ∧ (parseLLMResponse "resp" "think" (.ok
        [("action_type", .str "call_tool"), ("action_content", .str "hi"),
         ("confidence", .num (7/10))])).action_content = .jv (.str "hi")
    ∧ (parseLLMResponse "resp" "think" (.ok
        [("action_type", .str "call_tool"), ("action_content", .str "hi"),
         ("confidence", .num (7/10))])).confidence = 7/10 :=
  calltool_nonstruct_passthrough
    [("action_type", .str "call_tool"), ("action_content", .str "hi"),
     ("confidence", .num (7/10))]
    "resp" "think" "call_tool" (.str "hi") (7/10)
    rfl rfl rfl (fun kvs h => Json.noConfusion h) rfl

/-- C5 (amended): the action label is matched against the enum member
names after uppercasing (hence case-insensitively), and an unrecognized
label falls back to `DIRECT_REPLY` — but the confidence is still the
object's decoded confidence (default 0.5), not capped at 0.5. -/
theorem action_label_decoding (fields : List (String × Json))
    (raw thinking s : String) (q : ℚ)
    (hlabel : Json.lookup fields "action_type" = some (.str s))
    (hconf : pyFloat (Json.lookup fields "confidence") = .ok q) :
    (∀ a : ActionType, pyUpper s = a.enumName →
       (parseLLMResponse raw thinking (.ok fields)).action_type = a)
    ∧ (ActionType.ofName (pyUpper s) = none →
       (parseLLMResponse raw thinking (.ok fields)).action_type
           = ActionType.direct_reply
       ∧ (parseLLMResponse raw thinking (.ok fields)).confidence = q) := by
  constructor
  · intro a ha
    simp [parseLLMResponse, thoughtOfParsed, upperLabel, hlabel, hconf, ha,
      ActionType.ofName_enumName]
  · intro hnone
    constructor <;>
      simp [parseLLMResponse, thoughtOfParsed, upperLabel, hlabel, hconf,
        hnone]

theorem action_label_decoding_witness :
    (parseLLMResponse "r" "t" (.ok
        [("action_type", .str "delegate"),
         ("confidence", .num (4/5))])).action_type = ActionType.delegate
    ∧ (parseLLMResponse "r" "t" (.ok
        [("action_type", .str "FOO"),
         ("confidence", .num (9/10))])).action_type = ActionType.direct_reply
    ∧ (parseLLMResponse "r" "t" (.ok
        [("action_type", .str "FOO"),
         ("confidence", .num (9/10))])).confidence = 9/10 := by
  refine ⟨?_, ?_, ?_⟩
  · exact (action_label_decoding
      [("action_type", .str "delegate"), ("confidence", .num (4/5))]
      "r" "t" "delegate" (4/5) rfl rfl).1 ActionType.delegate rfl
  · exact ((action_label_decoding
      [("action_type", .str "FOO"), ("confidence", .num (9/10))]
      "r" "t" "FOO" (9/10) rfl rfl).2 rfl).1
  · exact ((action_label_decoding
      [("action_type", .str "FOO"), ("confidence", .num (9/10))]
      "r" "t" "FOO" (9/10) rfl rfl).2 rfl).2

/-- C5 counterexample: an unrecognized label with decoded confidence 0.9
yields a REPLY decision whose confidence is 0.9, refuting the claimed
bound `confidence ≤ 0.5`. -/
theorem unrecognized_label_high_confidence_counterexample :
    (parseLLMResponse "r" "t" (.ok
        [("action_type", Json.str "FOO"),
         ("confidence", Json.num (9/10))])).action_type
        = ActionType.direct_reply
    ∧ (parseLLMResponse "r" "t" (.ok
        [("action_type", Json.str "FOO"),
         ("confidence", Json.num (9/10))])).confidence = 9/10
    ∧ ¬ ((parseLLMResponse "r" "t" (.ok
        [("action_type", Json.str "FOO"),
         ("confidence", Json.num (9/10))])).confidence ≤ 1/2) := by
  refine ⟨rfl, rfl, ?_⟩
  have h : ¬ ((9 : ℚ)/10 ≤ 1/2) := by norm_num
  exact fun hc => h hc

theorem finalizeResponse_fst (response : String) (ctx : InteractionContext)
    (mgr : Option ConversationManager) (now : DateTime) :
    (finalizeResponse response ctx mgr now).1 = response := by
  cases mgr <;> rfl

theorem runLoop_chain_le (engine : InteractionContext → Thought)
    (execF : ToolCall → ToolResult) :
    ∀ (n : Nat) (ctx : InteractionContext) (mgr : Option ConversationManager)
      (now : DateTime),
      ctx.max_iterations - ctx.thought_chain.length ≤ n →
      (runLoop engine execF ctx mgr now).2.1.thought_chain.length
        ≤ max ctx.thought_chain.length ctx.max_iterations := by
  intro n
  induction n with
  | zero =>
    intro ctx mgr now hle
    have hmax : ctx.max_iterations ≤ ctx.thought_chain.length := by omega
    rw [runLoop, dif_pos hmax]
    exact Nat.le_max_left _ _
  | succ n ih =>
    intro ctx mgr now hle
    by_cases hmax : ctx.max_iterations ≤ ctx.thought_chain.length
    · rw [runLoop, dif_pos hmax]
      exact Nat.le_max_left _ _
    · rw [runLoop, dif_neg hmax]
      dsimp only
      cases hat : (engine ctx).action_type with
      | direct_reply =>
        simp [InteractionContext.add_thought]
        omega
      | ask_user =>
        simp [InteractionContext.add_thought]
        omega
      | delegate =>
        simp [InteractionContext.add_thought]
        omega
      | call_tool =>
        cases hac : (engine ctx).action_content with
        | jv j =>
          simp [InteractionContext.add_thought]
          omega
        | call tc =>
          by_cases hs : (execF tc).success = true
          · simp only [hs, if_true]
            simp only [InteractionContext.add_thought,
              InteractionContext.add_tool_result]
            have h2 := ih
              ((ctx.add_thought (engine ctx)).add_tool_result (execF tc))
              mgr now
              (by
                simp [InteractionContext.add_thought,
                  InteractionContext.add_tool_result]
                omega)
            simp only [InteractionContext.add_thought,
              InteractionContext.add_tool_result, List.length_append,
              List.length_cons, List.length_nil] at h2
            omega
          · simp only [hs, if_false]
            simp [InteractionContext.add_thought,
              InteractionContext.add_tool_result]
            omega

theorem runLoop_chain_le_start (engine : InteractionContext → Thought)
    (execF : ToolCall → ToolResult) (ctx : InteractionContext)
    (mgr : Option ConversationManager) (now : DateTime)
    (hstart : ctx.thought_chain = []) :
    (runLoop engine execF ctx mgr now).2.1.thought_chain.length
      ≤ ctx.max_iterations := by
  have h := runLoop_chain_le engine execF ctx.max_iterations ctx mgr now
    (by omega)
  rw [hstart] at h
  simpa using h

/-- C1: for every thinking engine and tool executor, `start_interaction`
makes at most `max_iterations` calls to `think` (each loop iteration calls
`think` exactly once and appends its result, so the final
`thought_chain` length is the number of `think` calls); and with
`max_iterations = 2` against a producer that always returns CALL_TOOL and a
tool that always succeeds, it makes exactly 2 `think` calls and returns the
fixed budget-exceeded fallback message. -/
theorem bounded_iterations_and_budget_message :
    (∀ (engine : InteractionContext → Thought)
       (execF : ToolCall → ToolResult) (max_iterations : Nat)
       (mgr : ConversationManager) (user_input : String)
       (history : Option (List (String × String))) (useMgr : Bool)
       (ati : Option Json) (now : DateTime),
       (start_interaction engine execF max_iterations mgr user_input history
           useMgr ati now).2.1.thought_chain.length ≤ max_iterations)
    ∧ (start_interaction (fun _ => alwaysCallThought) okExecutor 2
          (ConversationManager.mkNew 20 0) "hi" none true none 0).1
        = .ok budgetExceededMsg
    ∧ (start_interaction (fun _ => alwaysCallThought) okExecutor 2
          (ConversationManager.mkNew 20 0) "hi" none true none
          0).2.1.thought_chain.length = 2 := by
  refine ⟨fun engine execF maxI mgr input hist useMgr ati now => ?_, ?_, ?_⟩
  · simp only [start_interaction]
    exact runLoop_chain_le_start engine execF _ _ now rfl
  · simp [start_interaction, runLoop, alwaysCallThought, okExecutor,
      InteractionContext.add_thought, InteractionContext.add_tool_result,
      finalizeResponse]
  · simp [start_interaction, runLoop, alwaysCallThought, okExecutor,
      InteractionContext.add_thought, InteractionContext.add_tool_result,
      finalizeResponse]

/-- C2: when the decision is CALL_TOOL and the dispatched outcome has
`success = false`, the loop finalizes immediately — the chain grows by
exactly the one decision that requested the tool, so no further `think`
call and no retry happens — and the returned message is the synthesized
failure text embedding the tool's name and the outcome's error. -/
theorem tool_failure_terminal (engine : InteractionContext → Thought)
    (execF : ToolCall → ToolResult) (ctx : InteractionContext)
    (mgr : Option ConversationManager) (now : DateTime) (tc : ToolCall)
    (hnotmax : ¬ (ctx.max_iterations ≤ ctx.thought_chain.length))
    (hact : (engine ctx).action_type = .call_tool)
    (hcontent : (engine ctx).action_content = .call tc)
    (hfail : (execF tc).success = false) :
    (runLoop engine execF ctx mgr now).1
        = .ok (toolFailedMsg (execF tc).tool_name (execF tc).error)
    ∧ (runLoop engine execF ctx mgr now).2.1.thought_chain
        = ctx.thought_chain ++ [engine ctx]
    ∧ (∃ pre mid post,
        (toolFailedMsg (execF tc).tool_name (execF tc).error).data
          = pre ++ (execF tc).tool_name.data ++ mid
            ++ (match (execF tc).error with
                | some e => e.data
                | none => "None".data) ++ post) := by
  refine ⟨?_, ?_, ?_⟩
  · rw [runLoop, dif_neg hnotmax]
    dsimp only
    simp [hact, hcontent, hfail, finalizeResponse_fst]
  · rw [runLoop, dif_neg hnotmax]
    dsimp only
    simp [hact, hcontent, hfail, InteractionContext.add_thought,
      InteractionContext.add_tool_result]
  · cases herr : (execF tc).error with
    | some e =>
      refine ⟨"执行工具 ".data, " 失败: ".data, [], ?_⟩
      simp [toolFailedMsg, herr, String.data_append, List.append_assoc]
    | none =>
      refine ⟨"执行工具 ".data, " 失败: ".data, [], ?_⟩
      simp [toolFailedMsg, herr, String.data_append, List.append_assoc]

theorem tool_failure_terminal_witness :
    (runLoop (fun _ => ⟨.call_tool, .call ⟨"unknown_tool", [], "lookup"⟩,
        1, "r"⟩) (DefaultToolExecutor.execute sampleTools)
        ⟨"hi", [], [], [], 5, none⟩ none 0).1
      = .ok (toolFailedMsg "unknown_tool"
          (some (unknownToolError "unknown_tool" ["calculator", "broken"])))
    ∧ (runLoop (fun _ => ⟨.call_tool, .call ⟨"unknown_tool", [], "lookup"⟩,
        1, "r"⟩) (DefaultToolExecutor.execute sampleTools)
        ⟨"hi", [], [], [], 5, none⟩ none 0).2.1.thought_chain
      = [⟨.call_tool, .call ⟨"unknown_tool", [], "lookup"⟩, 1, "r"⟩] := by
  have h := tool_failure_terminal
    (fun _ => ⟨.call_tool, .call ⟨"unknown_tool", [], "lookup"⟩, 1, "r"⟩)
    (DefaultToolExecutor.execute sampleTools)
    ⟨"hi", [], [], [], 5, none⟩ none 0 ⟨"unknown_tool", [], "lookup"⟩
    (by simp) rfl rfl rfl
  exact ⟨h.1, h.2.1⟩

end Jarvis
